import Mathlib

/-!
# Verification of the repository-listing filter widget

Shallow embedding of the client-side filter controller (the extended variant
with category filtering, `site/search.js`): the data model (cards, sections,
category-filter buttons, optional summary/empty-state elements), the three
operations `applyLanguageAvailability`, `applyFilter` and the button click
handler, and theorems about them.

Modelling conventions:
* DOM string attributes (`card.dataset.repoName`, `button.dataset.language`,
  …) are modelled as `String`, with `""` standing both for an empty and for a
  missing attribute — JavaScript's `x || d` default treats the two the same,
  so nothing is lost.
* `aria-pressed` is modelled as the boolean `pressed`; `setButtonPressed`
  also toggles the purely presentational `is-active` CSS class, which always
  mirrors `aria-pressed` and is therefore not modelled separately.
* The JavaScript `Set` returned by `selectedLanguages` is used by the code
  only for emptiness tests and membership tests, so it is modelled as the
  underlying `List String` (duplicates do not affect either test).
* `toLowerCase`, `trim`, `includes` and `Number.parseInt(·, 10)` are
  modelled character-listwise (`lowerStr`, `jsTrim`, `includesStr`,
  `jsParseInt10`); on the ASCII data the page carries these agree with the
  JavaScript functions.
* The global `cards` collection (`.repo-card[data-repo-name]`) is the
  concatenation of the sections' card lists, in document order, matching the
  page produced by the generator where every card sits inside a section.
-/

namespace RepoFilter

/-- Character-listwise lowercasing, modelling `String.prototype.toLowerCase`
on the ASCII data the page carries. -/
def lowerStr (s : String) : String :=
  String.mk (s.data.map Char.toLower)

/-- Modelling `String.prototype.trim`: drop leading and trailing
whitespace. -/
def jsTrim (s : String) : String :=
  String.mk (((s.data.dropWhile Char.isWhitespace).reverse.dropWhile
    Char.isWhitespace).reverse)

/-- `startsWithChars q s` holds when `q` is an initial segment of `s`. -/
def startsWithChars : List Char → List Char → Bool
  | [], _ => true
  | _ :: _, [] => false
  | a :: as, b :: bs => a == b && startsWithChars as bs

/-- `occursIn q s` holds when `q` occurs contiguously inside `s`. -/
def occursIn (q : List Char) : List Char → Bool
  | [] => q == []
  | b :: bs => startsWithChars q (b :: bs) || occursIn q bs

/-- Modelling `haystack.includes(needle)` for strings. -/
def includesStr (haystack needle : String) : Bool :=
  occursIn needle.data haystack.data

/-- Modelling `Number.parseInt(s, 10)`: skip leading whitespace, read an
optional sign and then the longest digit prefix; `none` models `NaN`. -/
def jsParseInt10 (s : String) : Option Int :=
  let t := s.data.dropWhile Char.isWhitespace
  let signAndRest : Int × List Char :=
    match t with
    | '-' :: r => (-1, r)
    | '+' :: r => (1, r)
    | _ => (1, t)
  let ds := signAndRest.2.takeWhile Char.isDigit
  if ds.isEmpty then none
  else some (signAndRest.1 * (ds.foldl (fun a c => a * 10 + (c.toNat - 48)) 0 : Nat))

/-- Rendering a JavaScript number into a template string: `NaN` prints as
`"NaN"`, integers in decimal. -/
def renderNumber : Option Int → String
  | none => "NaN"
  | some n => toString n

/-- A repository card (`.repo-card[data-repo-name]`): the three `data-*`
text attributes and the mutable `hidden` flag. -/
structure Card where
  repoName : String
  repoLanguage : String
  repoDescription : String
  hidden : Bool
  deriving DecidableEq

/-- The optional `.section-count` summary element of a section: its fixed
`data-total` attribute and its mutable text content. -/
structure SectionCount where
  total : String
  text : String
  deriving DecidableEq

/-- A `.repo-section` grouping element: the cards it contains, its `hidden`
flag, and its optional `.section-count` summary element. -/
@[ext]
structure RepoSection where
  cards : List Card
  hidden : Bool
  sectionCount : Option SectionCount
  deriving DecidableEq

/-- A `.language-filter[data-language]` button: its `data-language` value
(`""` is the distinguished "all" button), its `aria-pressed` state and its
`hidden` flag. -/
structure FilterButton where
  language : String
  pressed : Bool
  hidden : Bool
  deriving DecidableEq

/-- The page state the controller reads and writes: the text input's value,
the sections (owning the cards), the optional empty-state indicator's hidden
flag, the card total captured at startup, the optional global summary
label's text, and the category-filter buttons. -/
@[ext]
structure PageState where
  searchValue : String
  sections : List RepoSection
  emptyState : Option Bool
  totalCount : Nat
  totalCountLabel : Option String
  languageFilters : List FilterButton
  deriving DecidableEq

/-- The document-order collection of all repo cards, `document.querySelectorAll(".repo-card[data-repo-name]")`. -/
def sectionsCards (secs : List RepoSection) : List Card :=
  (secs.map RepoSection.cards).flatten

/-- `searchableText(card)`: the three data attributes joined by single
spaces, lowercased. -/
def searchableText (card : Card) : String :=
  let repoName := card.repoName
  let repoLanguage := card.repoLanguage
  let repoDescription := card.repoDescription
  lowerStr s!"{repoName} {repoLanguage} {repoDescription}"

/-- `selectedLanguages()`: the values of the pressed buttons whose
`data-language` is non-empty (truthy). -/
def selectedLanguages (buttons : List FilterButton) : List String :=
  (buttons.filter fun button => !(button.language == "") && button.pressed).map
    fun button => button.language

/-- `setButtonPressed(button, isPressed)`: write `aria-pressed` (the
`is-active` class mirrors it). -/
def setButtonPressed (button : FilterButton) (isPressed : Bool) : FilterButton :=
  { button with pressed := isPressed }

/-- Mutating the button found by
`languageFilters.find((b) => (b.dataset.language || "") === "")`:
set the first "all" button's pressed state, a no-op when there is none
(the code guards each such call with `if (allButton)`). -/
def setAllButtonPressed (isPressed : Bool) : List FilterButton → List FilterButton
  | [] => []
  | button :: rest =>
    if button.language == "" then setButtonPressed button isPressed :: rest
    else button :: setAllButtonPressed isPressed rest

/-- A card's category value as used for language matching:
`(card.dataset.repoLanguage || "unknown").toLowerCase()`. -/
def cardLanguage (card : Card) : String :=
  lowerStr (if card.repoLanguage == "" then "unknown" else card.repoLanguage)

/-- The set of category values present on the page:
`new Set(cards.map((card) => (card.dataset.repoLanguage || "unknown").toLowerCase()))`. -/
def availableLanguages (cards : List Card) : List String :=
  cards.map cardLanguage

/-- The per-button body of the `applyLanguageAvailability` loop. -/
def availabilityStep (avail : List String) (button : FilterButton) : FilterButton :=
  let language := lowerStr button.language
  if language == "" then { button with hidden := false }
  else
    let isAvailable := avail.contains language
    let button1 := { button with hidden := !isAvailable }
    if isAvailable then button1 else setButtonPressed button1 false

/-- The effect of `applyLanguageAvailability` on the button group: the
per-button loop, then pressing "all" when no specific button is left
pressed. -/
def availabilityButtons (avail : List String) (buttons : List FilterButton) :
    List FilterButton :=
  let buttons1 := buttons.map (availabilityStep avail)
  if (selectedLanguages buttons1).isEmpty then setAllButtonPressed true buttons1
  else buttons1

/-- `applyLanguageAvailability()`: hide (and unpress) the buttons whose
value matches no card, never hide the "all" button, and press "all" when no
specific button is left pressed. -/
def applyLanguageAvailability (s : PageState) : PageState :=
  { s with
    languageFilters :=
      availabilityButtons (availableLanguages (sectionsCards s.sections))
        s.languageFilters }

/-- The per-card body of the `applyFilter` card loop: recompute the card's
`hidden` flag from the query and the selected language list. -/
def filterCard (query : String) (hasLanguageFilter : Bool)
    (activeLanguages : List String) (card : Card) : Card :=
  let queryMatches := query == "" || includesStr (searchableText card) query
  let languageMatches := !hasLanguageFilter || activeLanguages.contains (cardLanguage card)
  let isVisible := queryMatches && languageMatches
  { card with hidden := !isVisible }

/-- Number of visible cards in a list,
`querySelectorAll(".repo-card:not([hidden])").length`. -/
def countVisible (cards : List Card) : Nat :=
  (cards.filter fun card => !card.hidden).length

/-- The card loop of `applyFilter` restricted to one section. -/
def cardPass (query : String) (hasLanguageFilter : Bool)
    (activeLanguages : List String) (sec : RepoSection) : RepoSection :=
  { sec with cards := sec.cards.map (filterCard query hasLanguageFilter activeLanguages) }

/-- The per-section body of the first section loop of `applyFilter`:
unhide when not filtering, otherwise hide iff no contained card is
visible. -/
def hiddenPass (isFiltering : Bool) (sec : RepoSection) : RepoSection :=
  if !isFiltering then { sec with hidden := false }
  else { sec with hidden := !(sec.cards.any fun card => !card.hidden) }

/-- The global summary template
`` `Public repositories: ${visibleCards}/${totalCount}` ``. -/
def globalSummaryText (visibleCards totalCount : Nat) : String :=
  s!"Public repositories: {visibleCards}/{totalCount}"

/-- The per-section summary template
`` `Repositories: ${sectionVisible}/${sectionTotal}` ``. -/
def sectionSummaryText (sectionVisible : Nat) (sectionTotal : String) : String :=
  s!"Repositories: {sectionVisible}/{sectionTotal}"

/-- The per-section body of the second section loop of `applyFilter`:
rewrite the `.section-count` text when that element exists, else skip. -/
def summaryPass (sec : RepoSection) : RepoSection :=
  match sec.sectionCount with
  | none => sec
  | some sc =>
    let sectionTotal := renderNumber (jsParseInt10 (if sc.total == "" then "0" else sc.total))
    let sectionVisible := countVisible sec.cards
    { sec with sectionCount := some { sc with text := sectionSummaryText sectionVisible sectionTotal } }

/-- `applyFilter()`: the full recomputation pass — per-card visibility,
per-section visibility, empty-state indicator, global summary and
per-section summaries. -/
def applyFilter (s : PageState) : PageState :=
  let query := lowerStr (jsTrim s.searchValue)
  let activeLanguages := selectedLanguages s.languageFilters
  let hasLanguageFilter := !activeLanguages.isEmpty
  let isFiltering := !(query == "") || hasLanguageFilter
  let sections1 := s.sections.map (cardPass query hasLanguageFilter activeLanguages)
  let visibleCards := countVisible (sectionsCards sections1)
  let sections2 := sections1.map (hiddenPass isFiltering)
  let emptyState1 := s.emptyState.map fun _ => !isFiltering || decide (0 < visibleCards)
  let totalCount := s.totalCount
  let totalCountLabel1 := s.totalCountLabel.map fun _ => globalSummaryText visibleCards totalCount
  let sections3 := sections2.map summaryPass
  { s with sections := sections3, emptyState := emptyState1,
           totalCountLabel := totalCountLabel1 }

/-- The click handler's effect on the button group alone: press only "all"
when the clicked button is the "all" button; otherwise flip the clicked
button, unpress "all", and re-press "all" when no specific button is left
pressed. -/
def clickButtons (buttons : List FilterButton) (i : Nat) : List FilterButton :=
  match buttons[i]? with
  | none => buttons
  | some button =>
    if button.language == "" then
      buttons.map fun b => setButtonPressed b (b.language == "")
    else
      let buttons1 := buttons.set i (setButtonPressed button (!button.pressed))
      let buttons2 := setAllButtonPressed false buttons1
      if (selectedLanguages buttons2).isEmpty then setAllButtonPressed true buttons2
      else buttons2

/-- The full click handler for the button at index `i`: update the button
group and run `applyFilter`. -/
def clickButton (s : PageState) (i : Nat) : PageState :=
  applyFilter { s with languageFilters := clickButtons s.languageFilters i }

/-- The `input` event handler: the text input's value changed, rerun
`applyFilter`. -/
def inputEvent (s : PageState) (value : String) : PageState :=
  applyFilter { s with searchValue := value }

/-- The initialization pass of the controller: when the mandatory text
input is absent do nothing at all; otherwise capture `totalCount`, run
`applyLanguageAvailability` and then `applyFilter`. -/
def init (hasSearchInput : Bool) (s : PageState) : PageState :=
  if hasSearchInput then
    applyFilter (applyLanguageAvailability
      { s with totalCount := (sectionsCards s.sections).length })
  else s

/-- The query as `applyFilter` derives it from the text input. -/
def queryOf (s : PageState) : String :=
  lowerStr (jsTrim s.searchValue)

/-- `isFiltering`: the query is non-empty or some specific button is
pressed. -/
def isFilteringOf (s : PageState) : Bool :=
  !(queryOf s == "") || !(selectedLanguages s.languageFilters).isEmpty

/-- The card at position `j` of the section at position `i`. -/
def cardAt (s : PageState) (i j : Nat) : Option Card :=
  s.sections[i]?.bind fun sec => sec.cards[j]?

/-- Number of currently-visible cards on the whole page. -/
def visibleCountOf (s : PageState) : Nat :=
  countVisible (sectionsCards s.sections)

/-- A section whose optional `.section-count` summary element is absent. -/
def clearSectionCount (sec : RepoSection) : RepoSection :=
  { sec with sectionCount := none }

/-- Modelled from the spec's reference definition of the toggle state
machine (spec 4.2), for comparison with the code's `clickButtons`:
clicking the "all" button unpresses every specific button and presses
"all"; clicking a specific button flips its pressed flag, unconditionally
unpresses "all", and then presses "all" instead when the resulting
selected set is empty. -/
def clickTransitionSpec (buttons : List FilterButton) (i : Nat) : List FilterButton :=
  match buttons[i]? with
  | none => buttons
  | some button =>
    if button.language == "" then
      buttons.map fun b =>
        if b.language == "" then { b with pressed := true }
        else { b with pressed := false }
    else
      let flipped := buttons.set i { button with pressed := !button.pressed }
      let allOff := flipped.map fun b =>
        if b.language == "" then { b with pressed := false } else b
      if (selectedLanguages allOff).isEmpty then
        allOff.map fun b =>
          if b.language == "" then { b with pressed := true } else b
      else allOff

/-- The mutual-exclusivity invariant of the button group: exactly one of —
the "all" button is pressed and no specific button is pressed, or at least
one specific button is pressed and the "all" button is not. -/
def MutualExclusion (buttons : List FilterButton) : Prop :=
  ((∃ b ∈ buttons, b.language = "" ∧ b.pressed = true) ∧
    ¬∃ b ∈ buttons, b.language ≠ "" ∧ b.pressed = true) ∨
  ((∃ b ∈ buttons, b.language ≠ "" ∧ b.pressed = true) ∧
    ¬∃ b ∈ buttons, b.language = "" ∧ b.pressed = true)

instance (buttons : List FilterButton) : Decidable (MutualExclusion buttons) := by
  unfold MutualExclusion
  infer_instance

/-! ### Concrete page states used to witness the theorems -/

/-- A card with a category. -/
def cardAlpha : Card :=
  { repoName := "alpha", repoLanguage := "rust", repoDescription := "cli tool", hidden := false }

/-- A card with no category (`data-repo-language` empty/missing). -/
def cardBeta : Card :=
  { repoName := "beta", repoLanguage := "", repoDescription := "server", hidden := false }

/-- A small page: one section with two cards, an empty-state indicator, a
global summary label, and three filter buttons ("all", "rust", and a
"kotlin" button matching no card). -/
def exampleState : PageState :=
  { searchValue := ""
    sections := [{ cards := [cardAlpha, cardBeta], hidden := false,
                   sectionCount := some { total := "2", text := "" } }]
    emptyState := some true
    totalCount := 2
    totalCountLabel := some ""
    languageFilters := [{ language := "", pressed := true, hidden := false },
                        { language := "rust", pressed := false, hidden := false },
                        { language := "kotlin", pressed := false, hidden := false }] }

/-! ### Structural lemmas about the passes -/

theorem cardPass_cards (q : String) (hLF : Bool) (act : List String) (sec : RepoSection) :
    (cardPass q hLF act sec).cards = sec.cards.map (filterCard q hLF act) := rfl

theorem cardPass_hidden (q : String) (hLF : Bool) (act : List String) (sec : RepoSection) :
    (cardPass q hLF act sec).hidden = sec.hidden := rfl

theorem cardPass_sectionCount (q : String) (hLF : Bool) (act : List String) (sec : RepoSection) :
    (cardPass q hLF act sec).sectionCount = sec.sectionCount := rfl

theorem hiddenPass_cards (b : Bool) (sec : RepoSection) :
    (hiddenPass b sec).cards = sec.cards := by
  unfold hiddenPass; split <;> rfl

theorem hiddenPass_sectionCount (b : Bool) (sec : RepoSection) :
    (hiddenPass b sec).sectionCount = sec.sectionCount := by
  unfold hiddenPass; split <;> rfl

theorem hiddenPass_hidden (b : Bool) (sec : RepoSection) :
    (hiddenPass b sec).hidden = (if b then !(sec.cards.any fun card => !card.hidden) else false) := by
  unfold hiddenPass; cases b <;> simp

theorem summaryPass_cards (sec : RepoSection) : (summaryPass sec).cards = sec.cards := by
  unfold summaryPass
  cases sec.sectionCount <;> rfl

theorem summaryPass_hidden (sec : RepoSection) : (summaryPass sec).hidden = sec.hidden := by
  unfold summaryPass
  cases sec.sectionCount <;> rfl

theorem applyFilter_sections (s : PageState) :
    (applyFilter s).sections =
      s.sections.map fun sec =>
        summaryPass (hiddenPass (isFilteringOf s)
          (cardPass (queryOf s) (!(selectedLanguages s.languageFilters).isEmpty)
            (selectedLanguages s.languageFilters) sec)) := by
  simp [applyFilter, isFilteringOf, queryOf, List.map_map]

theorem applyFilter_languageFilters (s : PageState) :
    (applyFilter s).languageFilters = s.languageFilters := rfl

theorem applyFilter_searchValue (s : PageState) :
    (applyFilter s).searchValue = s.searchValue := rfl

theorem applyFilter_totalCount (s : PageState) :
    (applyFilter s).totalCount = s.totalCount := rfl

theorem filterCard_hidden (q : String) (hLF : Bool) (act : List String) (c : Card) :
    (filterCard q hLF act c).hidden =
      !((q == "" || includesStr (searchableText c) q) &&
        (!hLF || act.contains (cardLanguage c))) := rfl

theorem sectionsCards_map_of_cards_eq {f : RepoSection → RepoSection}
    (hf : ∀ sec, (f sec).cards = sec.cards) (l : List RepoSection) :
    sectionsCards (l.map f) = sectionsCards l := by
  unfold sectionsCards
  rw [List.map_map]
  exact congrArg List.flatten (List.map_congr_left fun sec _ => hf sec)

theorem applyFilter_sectionsCards (s : PageState) :
    sectionsCards (applyFilter s).sections =
      (sectionsCards s.sections).map
        (filterCard (queryOf s) (!(selectedLanguages s.languageFilters).isEmpty)
          (selectedLanguages s.languageFilters)) := by
  rw [applyFilter_sections]
  unfold sectionsCards
  rw [List.map_map, List.map_flatten, List.map_map]
  refine congrArg List.flatten (List.map_congr_left fun sec _ => ?_)
  simp [Function.comp, summaryPass_cards, hiddenPass_cards, cardPass_cards]

theorem sectionsCards_map_cardPass (q : String) (hLF : Bool) (act : List String)
    (l : List RepoSection) :
    sectionsCards (l.map (cardPass q hLF act)) =
      (sectionsCards l).map (filterCard q hLF act) := by
  simp only [sectionsCards, List.map_flatten, List.map_map]
  exact congrArg List.flatten (List.map_congr_left fun sec _ => rfl)

theorem applyFilter_emptyState (s : PageState) :
    (applyFilter s).emptyState =
      s.emptyState.map fun _ =>
        !(isFilteringOf s) || decide (0 < visibleCountOf (applyFilter s)) := by
  have hcards : sectionsCards (applyFilter s).sections =
      sectionsCards (s.sections.map
        (cardPass (queryOf s) (!(selectedLanguages s.languageFilters).isEmpty)
          (selectedLanguages s.languageFilters))) := by
    rw [applyFilter_sectionsCards, sectionsCards_map_cardPass]
  simp only [applyFilter, visibleCountOf, isFilteringOf, queryOf] at hcards ⊢
  simp only [hcards]

theorem applyFilter_totalCountLabel (s : PageState) :
    (applyFilter s).totalCountLabel =
      s.totalCountLabel.map fun _ =>
        globalSummaryText (visibleCountOf (applyFilter s)) s.totalCount := by
  have hcards : sectionsCards (applyFilter s).sections =
      sectionsCards (s.sections.map
        (cardPass (queryOf s) (!(selectedLanguages s.languageFilters).isEmpty)
          (selectedLanguages s.languageFilters))) := by
    rw [applyFilter_sectionsCards, sectionsCards_map_cardPass]
  simp only [applyFilter, visibleCountOf, isFilteringOf, queryOf] at hcards ⊢
  simp only [hcards]

/-! ### The claims -/

/-- C1: after any recomputation with query `q` and selected language set
`S`, a card is visible iff (`q` is empty or occurs in the lowercased join
of its name, category and description) and (`S` is empty or contains the
card's lowercased category, `"unknown"` when the category is absent). -/
theorem card_visible_iff (s : PageState) (i j : Nat) (c : Card)
    (h : cardAt s i j = some c) :
    ∃ c', cardAt (applyFilter s) i j = some c' ∧
      (c'.hidden = false ↔
        ((queryOf s = "" ∨ includesStr (searchableText c) (queryOf s) = true) ∧
         (selectedLanguages s.languageFilters = [] ∨
          (selectedLanguages s.languageFilters).contains (cardLanguage c) = true))) := by
  unfold cardAt at h ⊢
  obtain ⟨sec, hsec, hcard⟩ := Option.bind_eq_some.mp h
  refine ⟨filterCard (queryOf s) (!(selectedLanguages s.languageFilters).isEmpty)
    (selectedLanguages s.languageFilters) c, ?_, ?_⟩
  · rw [applyFilter_sections, List.getElem?_map, hsec]
    simp [summaryPass_cards, hiddenPass_cards, cardPass_cards, hcard]
  · simp [filterCard_hidden, List.isEmpty_iff]
    tauto

/-- C1 witness: the theorem applied to the concrete example page. -/
theorem card_visible_iff_witness :
    ∃ c', cardAt (applyFilter exampleState) 0 0 = some c' ∧
      (c'.hidden = false ↔
        ((queryOf exampleState = "" ∨
            includesStr (searchableText cardAlpha) (queryOf exampleState) = true) ∧
         (selectedLanguages exampleState.languageFilters = [] ∨
          (selectedLanguages exampleState.languageFilters).contains
            (cardLanguage cardAlpha) = true))) :=
  card_visible_iff exampleState 0 0 cardAlpha (by decide)

/-- C5: after any recomputation, when not filtering every section is
visible; when filtering a section is visible iff it contains a card that is
visible after the per-card pass. -/
theorem section_visible_iff (s : PageState) (i : Nat) (sec : RepoSection)
    (h : s.sections[i]? = some sec) :
    ∃ sec', (applyFilter s).sections[i]? = some sec' ∧
      (isFilteringOf s = false → sec'.hidden = false) ∧
      (isFilteringOf s = true →
        (sec'.hidden = false ↔ ∃ c ∈ sec'.cards, c.hidden = false)) := by
  rw [applyFilter_sections, List.getElem?_map, h]
  refine ⟨_, rfl, ?_, ?_⟩
  · intro hf
    rw [summaryPass_hidden, hiddenPass_hidden, hf]
    simp
  · intro hf
    rw [summaryPass_hidden, hiddenPass_hidden, hf, summaryPass_cards, hiddenPass_cards]
    simp [List.any_eq_true]

/-- C5 witness: the theorem applied to the concrete example page. -/
theorem section_visible_iff_witness :
    ∃ sec', (applyFilter exampleState).sections[0]? = some sec' ∧
      (isFilteringOf exampleState = false → sec'.hidden = false) ∧
      (isFilteringOf exampleState = true →
        (sec'.hidden = false ↔ ∃ c ∈ sec'.cards, c.hidden = false)) :=
  section_visible_iff exampleState 0
    { cards := [cardAlpha, cardBeta], hidden := false,
      sectionCount := some { total := "2", text := "" } } (by decide)

/-- C6: after any recomputation the empty-state indicator, when present, is
visible iff filtering is active and no card is visible. -/
theorem emptyState_visible_iff (s : PageState) (b : Bool)
    (h : s.emptyState = some b) :
    ∃ b', (applyFilter s).emptyState = some b' ∧
      (b' = false ↔
        (isFilteringOf s = true ∧ visibleCountOf (applyFilter s) = 0)) := by
  rw [applyFilter_emptyState, h]
  refine ⟨_, rfl, ?_⟩
  cases hf : isFilteringOf s <;>
    simp [decide_eq_false_iff_not, Nat.pos_iff_ne_zero]

/-- C6 witness: the theorem applied to the concrete example page. -/
theorem emptyState_visible_iff_witness :
    ∃ b', (applyFilter exampleState).emptyState = some b' ∧
      (b' = false ↔
        (isFilteringOf exampleState = true ∧
          visibleCountOf (applyFilter exampleState) = 0)) :=
  emptyState_visible_iff exampleState true (by decide)

theorem applyLanguageAvailability_totalCount (s : PageState) :
    (applyLanguageAvailability s).totalCount = s.totalCount := rfl

theorem summaryPass_sectionCount (sec : RepoSection) (sc : SectionCount)
    (h : sec.sectionCount = some sc) :
    (summaryPass sec).sectionCount = some ⟨sc.total,
      sectionSummaryText (countVisible sec.cards)
        (renderNumber (jsParseInt10 (if sc.total == "" then "0" else sc.total)))⟩ := by
  simp only [summaryPass, h]

/-- C7: after every recomputation the global summary label (when present)
reads `"Public repositories: <visible>/<total>"`, with the total captured
at startup and preserved by every transition; and each section summary
(when present) reads `"Repositories: <sectionVisible>/<sectionTotal>"`,
with the total read from the summary element's fixed attribute and the
visible count recomputed from that section's cards. -/
theorem summary_texts (s : PageState) (t : String) (i : Nat) (sec : RepoSection)
    (sc : SectionCount)
    (ht : s.totalCountLabel = some t)
    (hi : s.sections[i]? = some sec)
    (hsc : sec.sectionCount = some sc) :
    (applyFilter s).totalCountLabel =
      some (globalSummaryText (visibleCountOf (applyFilter s)) s.totalCount) ∧
    (init true s).totalCount = (sectionsCards s.sections).length ∧
    (applyFilter s).totalCount = s.totalCount ∧
    (∀ k, (clickButton s k).totalCount = s.totalCount) ∧
    (∀ v, (inputEvent s v).totalCount = s.totalCount) ∧
    ∃ sec', (applyFilter s).sections[i]? = some sec' ∧
      sec'.sectionCount = some ⟨sc.total,
        sectionSummaryText (countVisible sec'.cards)
          (renderNumber (jsParseInt10 (if sc.total == "" then "0" else sc.total)))⟩ := by
  refine ⟨?_, rfl, rfl, fun k => rfl, fun v => rfl, ?_⟩
  · rw [applyFilter_totalCountLabel, ht]
    rfl
  · rw [applyFilter_sections, List.getElem?_map, hi]
    refine ⟨_, rfl, ?_⟩
    rw [summaryPass_cards,
      summaryPass_sectionCount _ sc (by rw [hiddenPass_sectionCount, cardPass_sectionCount, hsc])]

/-- C7 witness: the theorem applied to the concrete example page. -/
theorem summary_texts_witness :
    (applyFilter exampleState).totalCountLabel =
      some (globalSummaryText (visibleCountOf (applyFilter exampleState))
        exampleState.totalCount) ∧
    (init true exampleState).totalCount =
      (sectionsCards exampleState.sections).length ∧
    (applyFilter exampleState).totalCount = exampleState.totalCount ∧
    (∀ k, (clickButton exampleState k).totalCount = exampleState.totalCount) ∧
    (∀ v, (inputEvent exampleState v).totalCount = exampleState.totalCount) ∧
    ∃ sec', (applyFilter exampleState).sections[0]? = some sec' ∧
      sec'.sectionCount = some ⟨"2",
        sectionSummaryText (countVisible sec'.cards)
          (renderNumber (jsParseInt10 (if ("2" : String) == "" then "0" else "2")))⟩ :=
  summary_texts exampleState "" 0
    { cards := [cardAlpha, cardBeta], hidden := false,
      sectionCount := some { total := "2", text := "" } }
    { total := "2", text := "" } (by decide) (by decide) (by decide)

theorem lowerStr_eq_empty_iff (s : String) : lowerStr s = "" ↔ s = "" := by
  constructor
  · intro h
    have h2 : s.data.map Char.toLower = [] := congrArg String.data h
    exact String.ext (List.map_eq_nil_iff.mp h2)
  · intro h
    rw [h]
    rfl

/-- C10: the `"unknown"` sentinel applies only to language matching, not to
text search — for a card with no category (and whose visible text does not
happen to contain `"unknown"`), its category for language matching is
`"unknown"`, the query `"unknown"` does not text-match it, yet the language
filter value `"unknown"` does match it. -/
theorem unknown_sentinel_only_for_language (c : Card)
    (hlang : c.repoLanguage = "")
    (htext : includesStr (searchableText c) "unknown" = false) :
    cardLanguage c = "unknown" ∧
    (filterCard "unknown" true ["unknown"] c).hidden = true ∧
    (filterCard "" true ["unknown"] c).hidden = false := by
  have hcl : cardLanguage c = "unknown" := by
    rw [cardLanguage, hlang]
    decide
  refine ⟨hcl, ?_, ?_⟩
  · rw [filterCard_hidden, htext, hcl]
    decide
  · rw [filterCard_hidden, hcl]
    simp

/-- C10 witness: the theorem applied to the concrete no-category card. -/
theorem unknown_sentinel_only_for_language_witness :
    cardLanguage cardBeta = "unknown" ∧
    (filterCard "unknown" true ["unknown"] cardBeta).hidden = true ∧
    (filterCard "" true ["unknown"] cardBeta).hidden = false :=
  unknown_sentinel_only_for_language cardBeta (by decide) (by decide)

theorem clearSectionCount_pass (q : String) (hLF b : Bool) (act : List String)
    (sec : RepoSection) :
    summaryPass (hiddenPass b (cardPass q hLF act (clearSectionCount sec))) =
      clearSectionCount (summaryPass (hiddenPass b (cardPass q hLF act sec))) := by
  obtain ⟨cards, hidden, sc⟩ := sec
  cases b <;> cases sc <;> rfl

/-- C9: when the mandatory text input is absent, initialization performs no
work at all; when it is present, the absence of any optional element —
empty-state indicator, global summary label, section summaries, category
buttons — skips only that element's update, leaving every other update of
the same recomputation unchanged. -/
theorem optional_elements_skipped (s : PageState) :
    init false s = s ∧
    applyFilter { s with emptyState := none } =
      { applyFilter s with emptyState := none } ∧
    applyFilter { s with totalCountLabel := none } =
      { applyFilter s with totalCountLabel := none } ∧
    applyFilter { s with sections := s.sections.map clearSectionCount } =
      { applyFilter s with
        sections := (applyFilter s).sections.map clearSectionCount } ∧
    applyLanguageAvailability { s with languageFilters := [] } =
      { s with languageFilters := [] } := by
  refine ⟨rfl, rfl, rfl, ?_, by ext1 <;> rfl⟩
  have hcards : sectionsCards (s.sections.map clearSectionCount) =
      sectionsCards s.sections :=
    @sectionsCards_map_of_cards_eq clearSectionCount (fun sec => rfl) s.sections
  ext1
  · rfl
  · show ((((s.sections.map clearSectionCount).map _).map _).map _ : List RepoSection) =
      (((s.sections.map _).map _).map _).map clearSectionCount
    simp only [List.map_map]
    exact List.map_congr_left fun sec _ => clearSectionCount_pass _ _ _ _ sec
  · show s.emptyState.map _ = s.emptyState.map _
    simp only [sectionsCards_map_cardPass, hcards]
  · rfl
  · show s.totalCountLabel.map _ = s.totalCountLabel.map _
    simp only [sectionsCards_map_cardPass, hcards]
  · rfl

theorem queryOf_applyFilter (s : PageState) : queryOf (applyFilter s) = queryOf s := rfl

theorem isFilteringOf_applyFilter (s : PageState) :
    isFilteringOf (applyFilter s) = isFilteringOf s := rfl

theorem filterCard_idem (q : String) (hLF : Bool) (act : List String) (c : Card) :
    filterCard q hLF act (filterCard q hLF act c) = filterCard q hLF act c := by
  obtain ⟨n, lg, d, h⟩ := c
  rfl

theorem filterPasses_idem (q : String) (hLF b : Bool) (act : List String)
    (sec : RepoSection) :
    summaryPass (hiddenPass b (cardPass q hLF act
      (summaryPass (hiddenPass b (cardPass q hLF act sec))))) =
    summaryPass (hiddenPass b (cardPass q hLF act sec)) := by
  obtain ⟨cards, hidden, sc⟩ := sec
  have hmap : (cards.map (filterCard q hLF act)).map (filterCard q hLF act) =
      cards.map (filterCard q hLF act) := by
    rw [List.map_map]
    exact List.map_congr_left fun c _ => filterCard_idem q hLF act c
  cases b <;> cases sc <;>
    simp [cardPass, hiddenPass, summaryPass, hmap]

theorem applyFilter_idem (s : PageState) :
    applyFilter (applyFilter s) = applyFilter s := by
  have hsec : (applyFilter (applyFilter s)).sections = (applyFilter s).sections := by
    rw [applyFilter_sections (applyFilter s), applyFilter_sections s,
      applyFilter_languageFilters, queryOf_applyFilter, isFilteringOf_applyFilter,
      List.map_map]
    exact List.map_congr_left fun sec _ => filterPasses_idem _ _ _ _ sec
  have hvc : visibleCountOf (applyFilter (applyFilter s)) =
      visibleCountOf (applyFilter s) := by
    unfold visibleCountOf
    rw [hsec]
  ext1
  · rfl
  · exact hsec
  · rw [applyFilter_emptyState (applyFilter s), applyFilter_emptyState s,
      isFilteringOf_applyFilter, hvc]
    cases s.emptyState <;> rfl
  · rfl
  · rw [applyFilter_totalCountLabel (applyFilter s), applyFilter_totalCountLabel s,
      applyFilter_totalCount, hvc]
    cases s.totalCountLabel <;> rfl
  · rfl

theorem availabilityStep_language (avail : List String) (b : FilterButton) :
    (availabilityStep avail b).language = b.language := by
  simp only [availabilityStep, setButtonPressed]
  split
  · rfl
  · split <;> rfl

theorem availabilityStep_idem (avail : List String) (b : FilterButton) :
    availabilityStep avail (availabilityStep avail b) = availabilityStep avail b := by
  obtain ⟨lang, p, hid⟩ := b
  by_cases h1 : lowerStr lang = ""
  · simp [availabilityStep, setButtonPressed, h1]
  · by_cases h2 : lowerStr lang ∈ avail <;>
      simp [availabilityStep, setButtonPressed, h1, h2]

theorem selectedLanguages_cons (b : FilterButton) (l : List FilterButton) :
    selectedLanguages (b :: l) =
      if !(b.language == "") && b.pressed then b.language :: selectedLanguages l
      else selectedLanguages l := by
  simp only [selectedLanguages, List.filter_cons]
  split <;> rfl

theorem selectedLanguages_setAllButtonPressed (p : Bool) (l : List FilterButton) :
    selectedLanguages (setAllButtonPressed p l) = selectedLanguages l := by
  induction l with
  | nil => rfl
  | cons b rest ih =>
    cases hb : (b.language == "")
    · simp [setAllButtonPressed, hb, selectedLanguages_cons, ih]
    · simp [setAllButtonPressed, hb, selectedLanguages_cons, setButtonPressed]

theorem map_availabilityStep_setAllButtonPressed (avail : List String) (p : Bool)
    (l : List FilterButton) :
    (setAllButtonPressed p l).map (availabilityStep avail) =
      setAllButtonPressed p (l.map (availabilityStep avail)) := by
  induction l with
  | nil => rfl
  | cons b rest ih =>
    cases hb : (b.language == "")
    · have hb' : ((availabilityStep avail b).language == "") = false := by
        rw [availabilityStep_language]; exact hb
      simp [setAllButtonPressed, hb, hb', ih]
    · have hb' : ((availabilityStep avail b).language == "") = true := by
        rw [availabilityStep_language]; exact hb
      have hblang : b.language = "" := by simpa using hb
      obtain ⟨lang, pr, hid⟩ := b
      simp only at hblang
      subst hblang
      simp [setAllButtonPressed, setButtonPressed, availabilityStep, lowerStr]

theorem setAllButtonPressed_idem (p : Bool) (l : List FilterButton) :
    setAllButtonPressed p (setAllButtonPressed p l) = setAllButtonPressed p l := by
  induction l with
  | nil => rfl
  | cons b rest ih =>
    cases hb : (b.language == "")
    · simp [setAllButtonPressed, hb, ih]
    · simp [setAllButtonPressed, hb, setButtonPressed]

theorem availabilityButtons_idem (avail : List String) (bs : List FilterButton) :
    availabilityButtons avail (availabilityButtons avail bs) =
      availabilityButtons avail bs := by
  have hB1 : (bs.map (availabilityStep avail)).map (availabilityStep avail) =
      bs.map (availabilityStep avail) := by
    rw [List.map_map]
    exact List.map_congr_left fun b _ => availabilityStep_idem avail b
  unfold availabilityButtons
  cases hc : (selectedLanguages (bs.map (availabilityStep avail))).isEmpty <;>
    simp [hc, hB1, map_availabilityStep_setAllButtonPressed,
      selectedLanguages_setAllButtonPressed, setAllButtonPressed_idem]

theorem applyLanguageAvailability_buttons (s : PageState) :
    (applyLanguageAvailability s).languageFilters =
      availabilityButtons (availableLanguages (sectionsCards s.sections))
        s.languageFilters := rfl

theorem applyLanguageAvailability_sections (s : PageState) :
    (applyLanguageAvailability s).sections = s.sections := rfl

theorem applyLanguageAvailability_idem (s : PageState) :
    applyLanguageAvailability (applyLanguageAvailability s) =
      applyLanguageAvailability s := by
  ext1
  · rfl
  · rfl
  · rfl
  · rfl
  · rfl
  · rw [applyLanguageAvailability_buttons (applyLanguageAvailability s),
      applyLanguageAvailability_sections, applyLanguageAvailability_buttons s]
    exact availabilityButtons_idem _ _

/-- C8: both recomputations are idempotent — running `applyFilter` twice
from the same inputs equals running it once, and re-running
`applyLanguageAvailability` after it has run changes nothing. -/
theorem recomputation_idempotent (s : PageState) :
    applyFilter (applyFilter s) = applyFilter s ∧
    applyLanguageAvailability (applyLanguageAvailability s) =
      applyLanguageAvailability s :=
  ⟨applyFilter_idem s, applyLanguageAvailability_idem s⟩

theorem setAllButtonPressed_getElem?_of_ne (p : Bool) (l : List FilterButton)
    (k : Nat) (b : FilterButton) (hk : l[k]? = some b) (hb : b.language ≠ "") :
    (setAllButtonPressed p l)[k]? = some b := by
  induction l generalizing k with
  | nil => simp at hk
  | cons c rest ih =>
    cases hc : (c.language == "")
    · cases k with
      | zero =>
        simp only [List.getElem?_cons_zero, Option.some.injEq] at hk
        subst hk
        simp [setAllButtonPressed, hb]
      | succ k =>
        simp only [List.getElem?_cons_succ] at hk
        simp [setAllButtonPressed, hc, ih k hk]
    · cases k with
      | zero =>
        simp only [List.getElem?_cons_zero, Option.some.injEq] at hk
        subst hk
        exact absurd (by simpa using hc) hb
      | succ k =>
        simp only [List.getElem?_cons_succ] at hk
        simp [setAllButtonPressed, hc, hk]


theorem selectedLanguages_eq_nil_iff (l : List FilterButton) :
    selectedLanguages l = [] ↔ ∀ b ∈ l, b.language = "" ∨ b.pressed = false := by
  unfold selectedLanguages
  rw [List.map_eq_nil_iff, List.filter_eq_nil_iff]
  constructor
  · intro h b hb
    have h2 := h b hb
    simp only [Bool.and_eq_true, Bool.not_eq_true', beq_eq_false_iff_ne, ne_eq,
      not_and] at h2
    by_cases hl : b.language = ""
    · exact Or.inl hl
    · exact Or.inr (Bool.eq_false_iff.mpr fun hp => h2 hl hp)
  · intro h b hb
    have h2 := h b hb
    simp only [Bool.and_eq_true, Bool.not_eq_true', beq_eq_false_iff_ne, ne_eq,
      not_and]
    intro hl hp
    rcases h2 with h2 | h2
    · exact hl h2
    · rw [h2] at hp
      exact Bool.false_ne_true hp

theorem exists_specific_pressed_of_selected_ne_nil (l : List FilterButton)
    (h : selectedLanguages l ≠ []) :
    ∃ b ∈ l, b.language ≠ "" ∧ b.pressed = true := by
  by_contra hc
  apply h
  rw [selectedLanguages_eq_nil_iff]
  intro b hb
  by_cases hl : b.language = ""
  · exact Or.inl hl
  · refine Or.inr (Bool.eq_false_iff.mpr fun hp => hc ⟨b, hb, hl, hp⟩)

theorem exists_pressed_after_setAllButtonPressed_true (l : List FilterButton)
    (h : ∃ b ∈ l, b.language = "") :
    ∃ b ∈ setAllButtonPressed true l, b.language = "" ∧ b.pressed = true := by
  induction l with
  | nil => simp at h
  | cons c rest ih =>
    cases hc : (c.language == "")
    · have hrest : ∃ b ∈ rest, b.language = "" := by
        obtain ⟨b, hb, hbl⟩ := h
        rcases List.mem_cons.mp hb with hb | hb
        · subst hb
          exact absurd hbl (by simpa using hc)
        · exact ⟨b, hb, hbl⟩
      obtain ⟨b, hb, hbl, hbp⟩ := ih hrest
      exact ⟨b, by simp [setAllButtonPressed, hc, hb], hbl, hbp⟩
    · refine ⟨setButtonPressed c true, by simp [setAllButtonPressed, hc], ?_, rfl⟩
      simpa using hc

theorem all_unpressed_after_setAllButtonPressed_false (l : List FilterButton)
    (h : (l.filter fun b => b.language == "").length ≤ 1) :
    ∀ b ∈ setAllButtonPressed false l, b.language = "" → b.pressed = false := by
  induction l with
  | nil => simp [setAllButtonPressed]
  | cons c rest ih =>
    cases hc : (c.language == "")
    · have hrest : (rest.filter fun b => b.language == "").length ≤ 1 := by
        simpa [List.filter_cons, hc] using h
      intro b hb hbl
      rcases List.mem_cons.mp (by simpa [setAllButtonPressed, hc] using hb) with hb' | hb'
      · subst hb'
        exact absurd hbl (by simpa using hc)
      · exact ih hrest b hb' hbl
    · have hcc : c.language = "" := by simpa using hc
      have hrest : rest.filter (fun b => b.language == "") = [] := by
        rw [List.filter_cons, if_pos hc, List.length_cons] at h
        exact List.length_eq_zero.mp (by omega)
      have hnone : ∀ b ∈ rest, b.language ≠ "" := by
        intro b hb hbl
        have hmem : b ∈ rest.filter (fun b => b.language == "") :=
          List.mem_filter.mpr ⟨hb, by simpa using hbl⟩
        simp [hrest] at hmem
      intro b hb hbl
      rcases List.mem_cons.mp (by simpa [setAllButtonPressed, hc] using hb) with hb' | hb'
      · subst hb'
        rfl
      · exact absurd hbl (hnone b hb')

theorem allCount_set (l : List FilterButton) (i : Nat) (b x : FilterButton)
    (hget : l[i]? = some b) (hx : x.language = b.language) :
    ((l.set i x).filter fun c => c.language == "").length =
      (l.filter fun c => c.language == "").length := by
  induction l generalizing i with
  | nil => simp at hget
  | cons c rest ih =>
    cases i with
    | zero =>
      simp only [List.getElem?_cons_zero, Option.some.injEq] at hget
      subst hget
      simp only [List.set_cons_zero, List.filter_cons, hx]
      split <;> simp
    | succ i =>
      simp only [List.getElem?_cons_succ] at hget
      simp only [List.set_cons_succ, List.filter_cons]
      split <;> simp [ih i hget]

theorem allCount_setAllButtonPressed (p : Bool) (l : List FilterButton) :
    ((setAllButtonPressed p l).filter fun c => c.language == "").length =
      (l.filter fun c => c.language == "").length := by
  induction l with
  | nil => rfl
  | cons c rest ih =>
    cases hc : (c.language == "") <;>
      simp [setAllButtonPressed, hc, List.filter_cons, setButtonPressed, ih]

theorem exists_all_of_filter_length (l : List FilterButton)
    (h : (l.filter fun b => b.language == "").length = 1) :
    ∃ b ∈ l, b.language = "" := by
  have hne : l.filter (fun b => b.language == "") ≠ [] := by
    intro hnil
    rw [hnil] at h
    simp at h
  obtain ⟨b, hb⟩ := List.exists_mem_of_ne_nil _ hne
  exact ⟨b, (List.mem_filter.mp hb).1, by simpa using (List.mem_filter.mp hb).2⟩

theorem clickButtons_some (bs : List FilterButton) (i : Nat) (button : FilterButton)
    (h : bs[i]? = some button) :
    clickButtons bs i =
      if button.language == "" then
        bs.map fun b => setButtonPressed b (b.language == "")
      else if (selectedLanguages (setAllButtonPressed false
          (bs.set i (setButtonPressed button (!button.pressed))))).isEmpty then
        setAllButtonPressed true (setAllButtonPressed false
          (bs.set i (setButtonPressed button (!button.pressed))))
      else
        setAllButtonPressed false
          (bs.set i (setButtonPressed button (!button.pressed))) := by
  unfold clickButtons
  rw [h]

/-- C2: after every click transition of a button group that contains
exactly one "all" button, from any prior state, exactly one configuration
holds: the "all" button pressed with no specific button pressed, or at
least one specific button pressed with the "all" button unpressed. -/
theorem click_mutual_exclusion (s : PageState) (i : Nat)
    (hi : i < s.languageFilters.length)
    (huniq : (s.languageFilters.filter fun b => b.language == "").length = 1) :
    MutualExclusion (clickButton s i).languageFilters := by
  have hget : s.languageFilters[i]? = some s.languageFilters[i] :=
    List.getElem?_eq_getElem hi
  show MutualExclusion (clickButtons s.languageFilters i)
  rw [clickButtons_some s.languageFilters i _ hget]
  cases hlang : (s.languageFilters[i].language == "")
  · -- a specific button was clicked
    rw [if_neg (by simp [hlang])]
    have hcount1 : ((s.languageFilters.set i
        (setButtonPressed s.languageFilters[i] (!s.languageFilters[i].pressed))).filter
          fun c => c.language == "").length = 1 := by
      rw [allCount_set s.languageFilters i s.languageFilters[i]
        (setButtonPressed s.languageFilters[i] (!s.languageFilters[i].pressed)) hget rfl]
      exact huniq
    have hcount2 : ((setAllButtonPressed false (s.languageFilters.set i
        (setButtonPressed s.languageFilters[i] (!s.languageFilters[i].pressed)))).filter
          fun c => c.language == "").length = 1 := by
      rw [allCount_setAllButtonPressed]
      exact hcount1
    cases hsel : (selectedLanguages (setAllButtonPressed false
        (s.languageFilters.set i
          (setButtonPressed s.languageFilters[i] (!s.languageFilters[i].pressed))))).isEmpty
    · rw [if_neg (by simp [hsel])]
      right
      constructor
      · exact exists_specific_pressed_of_selected_ne_nil _
          (List.isEmpty_eq_false.mp hsel)
      · rintro ⟨b, hb, hbl, hbp⟩
        have hfb := all_unpressed_after_setAllButtonPressed_false _
          (le_of_eq hcount1) b hb hbl
        rw [hfb] at hbp
        exact Bool.false_ne_true hbp
    · rw [if_pos rfl]
      left
      constructor
      · exact exists_pressed_after_setAllButtonPressed_true _
          (exists_all_of_filter_length _ hcount2)
      · rintro ⟨b, hb, hbl, hbp⟩
        have hnil : selectedLanguages (setAllButtonPressed true
            (setAllButtonPressed false (s.languageFilters.set i
              (setButtonPressed s.languageFilters[i]
                (!s.languageFilters[i].pressed))))) = [] := by
          rw [selectedLanguages_setAllButtonPressed]
          exact List.isEmpty_iff.mp hsel
        rcases (selectedLanguages_eq_nil_iff _).mp hnil b hb with h | h
        · exact hbl h
        · rw [h] at hbp
          exact Bool.false_ne_true hbp
  · -- the "all" button was clicked
    rw [if_pos rfl]
    left
    constructor
    · refine ⟨setButtonPressed s.languageFilters[i] (s.languageFilters[i].language == ""),
        List.mem_map_of_mem _ (List.getElem_mem hi), ?_, ?_⟩
      · show s.languageFilters[i].language = ""
        simpa using hlang
      · show (s.languageFilters[i].language == "") = true
        exact hlang
    · rintro ⟨b, hb, hbl, hbp⟩
      obtain ⟨b0, hb0, rfl⟩ := List.mem_map.mp hb
      have hb0l : b0.language ≠ "" := by simpa [setButtonPressed] using hbl
      have hfalse : (b0.language == "") = false := by simpa using hb0l
      rw [show (setButtonPressed b0 (b0.language == "")).pressed =
        (b0.language == "") from rfl, hfalse] at hbp
      exact Bool.false_ne_true hbp

/-- C2 witness: clicking the "rust" button of the concrete example page. -/
theorem click_mutual_exclusion_witness :
    MutualExclusion (clickButton exampleState 1).languageFilters :=
  click_mutual_exclusion exampleState 1 (by decide) (by decide)

theorem setAllButtonPressed_cons (p : Bool) (c : FilterButton)
    (rest : List FilterButton) :
    setAllButtonPressed p (c :: rest) =
      if c.language == "" then setButtonPressed c p :: rest
      else c :: setAllButtonPressed p rest := rfl

theorem map_pressAll_of_no_all (p : Bool) (l : List FilterButton)
    (h : (l.filter fun b => b.language == "").length = 0) :
    (l.map fun b => if b.language == "" then { b with pressed := p } else b) = l := by
  induction l with
  | nil => rfl
  | cons c rest ih =>
    cases hc : (c.language == "")
    · have hrest : (rest.filter fun b => b.language == "").length = 0 := by
        rw [List.filter_cons, if_neg (by simp [hc])] at h
        exact h
      rw [List.map_cons, if_neg (by simp [hc]), ih hrest]
    · rw [List.filter_cons, if_pos hc, List.length_cons] at h
      omega

theorem setAllButtonPressed_eq_map (p : Bool) (l : List FilterButton)
    (h : (l.filter fun b => b.language == "").length ≤ 1) :
    setAllButtonPressed p l =
      l.map fun b => if b.language == "" then { b with pressed := p } else b := by
  induction l with
  | nil => rfl
  | cons c rest ih =>
    cases hc : (c.language == "")
    · have hrest : (rest.filter fun b => b.language == "").length ≤ 1 := by
        rw [List.filter_cons, if_neg (by simp [hc])] at h
        exact h
      rw [setAllButtonPressed_cons, if_neg (by simp [hc]), List.map_cons,
        if_neg (by simp [hc]), ih hrest]
    · have hrest : (rest.filter fun b => b.language == "").length = 0 := by
        rw [List.filter_cons, if_pos hc, List.length_cons] at h
        omega
      rw [setAllButtonPressed_cons, if_pos hc, List.map_cons, if_pos hc,
        map_pressAll_of_no_all p rest hrest]
      rfl

theorem allCount_map_language_preserving {f : FilterButton → FilterButton}
    (hf : ∀ b, (f b).language = b.language) (l : List FilterButton) :
    ((l.map f).filter fun b => b.language == "").length =
      (l.filter fun b => b.language == "").length := by
  induction l with
  | nil => rfl
  | cons c rest ih =>
    cases hc : (c.language == "")
    · rw [List.map_cons, List.filter_cons, List.filter_cons,
        if_neg (by simp [hf c, hc]), if_neg (by simp [hc])]
      exact ih
    · have hcl : c.language = "" := by simpa using hc
      rw [List.map_cons, List.filter_cons, List.filter_cons,
        if_pos (by simp [hf c, hcl]), if_pos hc,
        List.length_cons, List.length_cons, ih]

theorem clickTransitionSpec_some (bs : List FilterButton) (i : Nat)
    (button : FilterButton) (h : bs[i]? = some button) :
    clickTransitionSpec bs i =
      if button.language == "" then
        bs.map fun b =>
          if b.language == "" then { b with pressed := true }
          else { b with pressed := false }
      else if (selectedLanguages ((bs.set i { button with pressed := !button.pressed }).map
          fun b => if b.language == "" then { b with pressed := false } else b)).isEmpty then
        ((bs.set i { button with pressed := !button.pressed }).map
          fun b => if b.language == "" then { b with pressed := false } else b).map
            fun b => if b.language == "" then { b with pressed := true } else b
      else
        (bs.set i { button with pressed := !button.pressed }).map
          fun b => if b.language == "" then { b with pressed := false } else b := by
  unfold clickTransitionSpec
  rw [h]

/-- C3: the click transition of the toggle state machine, on a button group
with at most one "all" button, equals the spec's reference definition
(`clickTransitionSpec`): clicking "all" unconditionally unpresses every
specific button and presses "all"; clicking a specific button flips it,
unconditionally unpresses "all", and presses "all" instead when the
resulting selected set is empty. -/
theorem click_transition_matches_spec (s : PageState) (i : Nat)
    (huniq : (s.languageFilters.filter fun b => b.language == "").length ≤ 1) :
    (clickButton s i).languageFilters = clickTransitionSpec s.languageFilters i := by
  show clickButtons s.languageFilters i = clickTransitionSpec s.languageFilters i
  cases hg : s.languageFilters[i]? with
  | none =>
    have h1 : clickButtons s.languageFilters i = s.languageFilters := by
      unfold clickButtons
      rw [hg]
    have h2 : clickTransitionSpec s.languageFilters i = s.languageFilters := by
      unfold clickTransitionSpec
      rw [hg]
    rw [h1, h2]
  | some button =>
    rw [clickButtons_some s.languageFilters i button hg,
      clickTransitionSpec_some s.languageFilters i button hg]
    cases hlang : (button.language == "")
    · rw [if_neg Bool.false_ne_true, if_neg Bool.false_ne_true]
      simp only [setButtonPressed]
      have hcount1 : ((s.languageFilters.set i
          { button with pressed := !button.pressed }).filter
            fun b => b.language == "").length ≤ 1 := by
        rw [allCount_set s.languageFilters i button
          { button with pressed := !button.pressed } hg rfl]
        exact huniq
      have hcount2 : (((s.languageFilters.set i
          { button with pressed := !button.pressed }).map fun b =>
            if b.language == "" then { b with pressed := false } else b).filter
              fun b => b.language == "").length ≤ 1 := by
        rw [allCount_map_language_preserving
          (fun b => by cases hb : (b.language == "") <;> simp [hb]) _]
        exact hcount1
      rw [setAllButtonPressed_eq_map false _ hcount1,
        setAllButtonPressed_eq_map true _ hcount2]
    · rw [if_pos rfl, if_pos rfl]
      refine List.map_congr_left fun b _ => ?_
      cases hb : (b.language == "")
      · rw [if_neg Bool.false_ne_true]
        rfl
      · rw [if_pos rfl]
        rfl

/-- C3 witness: clicking the "rust" button of the concrete example page. -/
theorem click_transition_matches_spec_witness :
    (clickButton exampleState 1).languageFilters =
      clickTransitionSpec exampleState.languageFilters 1 :=
  click_transition_matches_spec exampleState 1 (by decide)

/-- C4 counterexample: on the concrete example page the "kotlin" button
(whose value is the category of no card) is hidden and unpressed after the
availability pass, yet a click event delivered to that hidden button does
press it and does change card visibility — refuting the claim that such a
click has no visible effect. -/
theorem hidden_button_click_has_effect :
    (((applyLanguageAvailability exampleState).languageFilters[2]?).map
      fun b => (b.hidden, b.pressed)) = some (true, false) ∧
    (((clickButton (applyLanguageAvailability exampleState) 2).languageFilters[2]?).map
      fun b => b.pressed) = some true ∧
    ((sectionsCards (applyLanguageAvailability exampleState).sections).map
      Card.hidden) = [false, false] ∧
    ((sectionsCards (clickButton (applyLanguageAvailability exampleState) 2).sections).map
      Card.hidden) = [true, true] := by
  decide

/-- C4 amended: a category filter button whose value is the lowercased
category of no card is hidden and unpressed after the availability pass,
and it stays unpressed — hence it never contributes to the selected
language set — under text-input events and under click events on any other
button; only a click event delivered directly to the hidden button itself
(unreachable through the page, since the button is hidden) presses it. -/
theorem unavailable_button_stays_unpressed (s s' : PageState) (k i : Nat)
    (b b' : FilterButton)
    (hb : s.languageFilters[k]? = some b)
    (hblang : b.language ≠ "")
    (hunavail : (availableLanguages (sectionsCards s.sections)).contains
      (lowerStr b.language) = false)
    (hb' : s'.languageFilters[k]? = some b')
    (hblang' : b'.language ≠ "")
    (hpressed' : b'.pressed = false)
    (hne : i ≠ k) :
    ((applyLanguageAvailability s).languageFilters[k]? =
      some ⟨b.language, false, true⟩) ∧
    (∃ b2, (clickButton s' i).languageFilters[k]? = some b2 ∧ b2.pressed = false) ∧
    (∀ v, (inputEvent s' v).languageFilters = s'.languageFilters) := by
  have hlne : lowerStr b.language ≠ "" := fun hc =>
    hblang ((lowerStr_eq_empty_iff _).mp hc)
  have h1 : (lowerStr b.language == "") = false := by simpa using hlne
  have hstep : availabilityStep (availableLanguages (sectionsCards s.sections)) b =
      ⟨b.language, false, true⟩ := by
    have h1' : ¬((lowerStr b.language == "") = true) := by
      rw [h1]
      exact Bool.false_ne_true
    have h2' : ¬(((availableLanguages (sectionsCards s.sections)).contains
        (lowerStr b.language)) = true) := by
      rw [hunavail]
      exact Bool.false_ne_true
    simp only [availabilityStep, setButtonPressed]
    rw [if_neg h1', if_neg h2']
    have hmem : lowerStr b.language ∉ availableLanguages (sectionsCards s.sections) := by
      simpa using hunavail
    simp [hunavail, hmem]
  refine ⟨?_, ?_, fun v => rfl⟩
  · rw [applyLanguageAvailability_buttons]
    have hmapk : (s.languageFilters.map
        (availabilityStep (availableLanguages (sectionsCards s.sections))))[k]? =
        some ⟨b.language, false, true⟩ := by
      rw [List.getElem?_map, hb]
      simp [hstep]
    simp only [availabilityButtons]
    cases hsel : (selectedLanguages (s.languageFilters.map
        (availabilityStep (availableLanguages (sectionsCards s.sections))))).isEmpty
    · rw [if_neg Bool.false_ne_true]
      exact hmapk
    · rw [if_pos rfl]
      exact setAllButtonPressed_getElem?_of_ne true _ k _ hmapk hblang
  · show ∃ b2, (clickButtons s'.languageFilters i)[k]? = some b2 ∧ b2.pressed = false
    cases hgi : s'.languageFilters[i]? with
    | none =>
      have hcb : clickButtons s'.languageFilters i = s'.languageFilters := by
        unfold clickButtons
        rw [hgi]
      rw [hcb]
      exact ⟨b', hb', hpressed'⟩
    | some button =>
      rw [clickButtons_some s'.languageFilters i button hgi]
      cases hbl : (button.language == "")
      · rw [if_neg Bool.false_ne_true]
        have hset : (s'.languageFilters.set i
            (setButtonPressed button (!button.pressed)))[k]? = some b' := by
          rw [List.getElem?_set_ne hne, hb']
        have hsetall : (setAllButtonPressed false (s'.languageFilters.set i
            (setButtonPressed button (!button.pressed))))[k]? = some b' :=
          setAllButtonPressed_getElem?_of_ne false _ k b' hset hblang'
        cases hsel : (selectedLanguages (setAllButtonPressed false
            (s'.languageFilters.set i
              (setButtonPressed button (!button.pressed))))).isEmpty
        · rw [if_neg Bool.false_ne_true]
          exact ⟨b', hsetall, hpressed'⟩
        · rw [if_pos rfl]
          exact ⟨b', setAllButtonPressed_getElem?_of_ne true _ k b' hsetall hblang',
            hpressed'⟩
      · rw [if_pos rfl]
        refine ⟨setButtonPressed b' (b'.language == ""), ?_, ?_⟩
        · rw [List.getElem?_map, hb']
          rfl
        · show (b'.language == "") = false
          simpa using hblang'

/-- C4 witness for the amended claim: the unavailable "kotlin" button of
the concrete example page, with a click on the "rust" button and a text
input. -/
theorem unavailable_button_stays_unpressed_witness :
    ((applyLanguageAvailability exampleState).languageFilters[2]? =
      some ⟨"kotlin", false, true⟩) ∧
    (∃ b2, (clickButton (applyLanguageAvailability exampleState) 1).languageFilters[2]? =
      some b2 ∧ b2.pressed = false) ∧
    (inputEvent (applyLanguageAvailability exampleState) "x").languageFilters =
      (applyLanguageAvailability exampleState).languageFilters := by
  obtain ⟨h1, h2, h3⟩ := unavailable_button_stays_unpressed exampleState
    (applyLanguageAvailability exampleState) 2 1
    ⟨"kotlin", false, false⟩ ⟨"kotlin", false, true⟩
    (by decide) (by decide) (by decide) (by decide) (by decide) (by decide)
    (by decide)
  exact ⟨h1, h2, h3 "x"⟩

end RepoFilter
